import Mathlib

/-!
# Verification of the MattyJacksBot Remote Orchestration Core

A shallow embedding of the remote-orchestration core of the repository:
model selection (`selectModelForVRAM`), model-pull fallback
(`buildModelCandidates`, `pullModelForVRAM`), connection retry
(`connectWithRetry`), remote command retry (`executeRemote`), gateway health
checks (`ensureGatewayRunning`) and the file synchronization engine
(`runSync`).  Effectful JavaScript code is embedded as pure state-passing
functions; remote command outcomes are supplied by explicit oracles.
-/

set_option maxHeartbeats 1000000
set_option maxRecDepth 100000

namespace MJB

/-! ## String helpers mirroring JavaScript string semantics -/

/-- `isPre needle hay`: `needle` is a prefix of `hay` (character lists). -/
def isPre : List Char → List Char → Bool
  | [], _ => true
  | _ :: _, [] => false
  | a :: as, b :: bs => a == b && isPre as bs

/-- `hasSub needle hay`: `needle` occurs as a contiguous substring of `hay`. -/
def hasSub (needle : List Char) : List Char → Bool
  | [] => isPre needle []
  | c :: rest => isPre needle (c :: rest) || hasSub needle rest

/-- JavaScript `hay.includes(needle)`. -/
def strIncludes (hay needle : String) : Bool :=
  hasSub needle.toList hay.toList

/-- JavaScript `s.toLowerCase()` (ASCII-level, as used by the code). -/
def lowerStr (s : String) : String :=
  String.mk (s.toList.map Char.toLower)

def isWsChar (c : Char) : Bool :=
  c == ' ' || c == '\t' || c == '\n' || c == '\r'

/-- JavaScript `s.trim()`. -/
def jsTrim (s : String) : String :=
  String.mk (((s.toList.dropWhile isWsChar).reverse.dropWhile isWsChar).reverse)

/-- Split a character list at every occurrence of `sep` (accumulator holds the
current segment, reversed). -/
def splitCh (sep : Char) : List Char → List Char → List (List Char)
  | [], acc => [acc.reverse]
  | c :: rest, acc =>
    if c == sep then acc.reverse :: splitCh sep rest []
    else splitCh sep rest (c :: acc)

/-- JavaScript `s.split(sep)` for a single-character separator. -/
def jsSplitChar (sep : Char) (s : String) : List String :=
  (splitCh sep s.toList []).map String.mk

/-- JS truthiness of an optional string (e.g. an environment variable):
`undefined` and `''` are falsy. -/
def jsTruthy : Option String → Bool
  | none => false
  | some s => s != ""

/-- JavaScript `v || d` for an optional string `v`. -/
def jsOr (v : Option String) (d : String) : String :=
  match v with
  | none => d
  | some s => if s = "" then d else s

/-! ## Model selection (`selectModelForVRAM`, src/unnamed/part_004 lines 220-253)

The source reads `MODEL_FAMILY`/`MODEL_OVERRIDE` and the three
`VRAM_THRESHOLD_*` variables from the environment; here they are explicit
parameters (the numeric thresholds are passed already parsed). -/

def selectModelForVRAM (family : String) (override : Option String)
    (lowThreshold midThreshold highThreshold : Nat) (vramGB : Nat) : String :=
  if jsTruthy override then override.getD "" else
  let isCoder := strIncludes (lowerStr family) "coder"
  if isCoder then
    if vramGB < lowThreshold then family ++ ":7b"
    else if vramGB < highThreshold then family ++ ":14b"
    else family ++ ":30b"
  else
    if vramGB < lowThreshold then family ++ ":4b"
    else if vramGB < midThreshold then family ++ ":8b"
    else if vramGB < highThreshold then family ++ ":14b"
    else family ++ ":30b"

/-- The smallest model tier the code selects for a family
(`:7b` for coder families, `:4b` otherwise). -/
def smallestTier (family : String) : String :=
  if strIncludes (lowerStr family) "coder" then family ++ ":7b" else family ++ ":4b"

/-- C2 (counterexample): the claim "a capacity at or above the high threshold
yields the largest tier" fails when the configured thresholds are crossed:
with low = 20 and high = 16, a capacity of 18 is at/above the high threshold
yet `selectModelForVRAM` returns the smallest tier `qwen3-coder:7b`, because
the low-threshold branch is tested first. -/
theorem selectModelForVRAM_high_cex :
    16 ≤ 18 ∧ jsTruthy none = false ∧
      selectModelForVRAM "qwen3-coder" none 20 12 16 18 = "qwen3-coder:7b" ∧
      selectModelForVRAM "qwen3-coder" none 20 12 16 18 ≠ "qwen3-coder:30b" := by
  refine ⟨by norm_num, rfl, by decide, by decide⟩

/-- C2 (amended): `selectModelForVRAM` is a pure function of
(family, override, capacity, thresholds).  An override that is set (to a
non-empty string) is returned regardless of capacity; with no override a
capacity strictly below the low threshold yields the smallest tier of the
family; and, provided the thresholds are ordered (low ≤ high and mid ≤ high),
a capacity at or above the high threshold yields the largest tier. -/
theorem selectModelForVRAM_policy (family : String) (override : Option String)
    (low mid high vram : Nat) :
    (∀ o, override = some o → o ≠ "" →
        selectModelForVRAM family override low mid high vram = o)
    ∧ (jsTruthy override = false → vram < low →
        selectModelForVRAM family override low mid high vram = smallestTier family)
    ∧ (jsTruthy override = false → low ≤ high → mid ≤ high → high ≤ vram →
        selectModelForVRAM family override low mid high vram = family ++ ":30b") := by
  refine ⟨?_, ?_, ?_⟩
  · rintro o rfl ho
    have ht : jsTruthy (some o) = true := by
      simpa [jsTruthy] using ho
    simp [selectModelForVRAM, ht]
  · intro ho hv
    simp [selectModelForVRAM, ho, smallestTier, hv]
  · intro ho hlh hmh hhv
    have h1 : ¬ vram < low := by omega
    have h2 : ¬ vram < mid := by omega
    have h3 : ¬ vram < high := by omega
    simp [selectModelForVRAM, ho, h1, h2, h3]

/-- Witness for `selectModelForVRAM_policy` at concrete inputs. -/
theorem selectModelForVRAM_policy_witness :
    selectModelForVRAM "qwen3-coder" (some "mistral:7b") 10 12 16 99 = "mistral:7b"
    ∧ selectModelForVRAM "qwen3-coder" none 10 12 16 5 = "qwen3-coder:7b"
    ∧ selectModelForVRAM "llama" none 10 12 16 20 = "llama:30b" :=
  ⟨(selectModelForVRAM_policy "qwen3-coder" (some "mistral:7b") 10 12 16 99).1
      "mistral:7b" rfl (by decide),
   ((selectModelForVRAM_policy "qwen3-coder" none 10 12 16 5).2.1
      rfl (by norm_num)).trans (by decide),
   ((selectModelForVRAM_policy "llama" none 10 12 16 20).2.2
      rfl (by norm_num) (by norm_num) (by norm_num))⟩

/-- C10: for a family whose (lower-cased) name contains "coder" and no
override, `selectModelForVRAM` never consults the mid threshold — the result
is unchanged under any replacement of `mid`, and is fully determined by the
chain: below the low threshold the 7b tier, otherwise below the high
threshold the 14b tier, otherwise the 30b tier. -/
theorem selectModelForVRAM_coder_ignores_mid (family : String)
    (override : Option String) (low high vram mid mid' : Nat)
    (hc : strIncludes (lowerStr family) "coder" = true)
    (ho : jsTruthy override = false) :
    selectModelForVRAM family override low mid high vram
      = selectModelForVRAM family override low mid' high vram
    ∧ (vram < low →
        selectModelForVRAM family override low mid high vram = family ++ ":7b")
    ∧ (¬ vram < low → vram < high →
        selectModelForVRAM family override low mid high vram = family ++ ":14b")
    ∧ (¬ vram < low → ¬ vram < high →
        selectModelForVRAM family override low mid high vram = family ++ ":30b") := by
  refine ⟨by simp [selectModelForVRAM, ho, hc], ?_, ?_, ?_⟩
  · intro hv
    simp [selectModelForVRAM, ho, hc, hv]
  · intro h1 h2
    simp [selectModelForVRAM, ho, hc, h1, h2]
  · intro h1 h2
    simp [selectModelForVRAM, ho, hc, h1, h2]

/-- Witness for `selectModelForVRAM_coder_ignores_mid` at concrete inputs. -/
theorem selectModelForVRAM_coder_ignores_mid_witness :
    selectModelForVRAM "qwen3-coder" none 10 0 16 12
      = selectModelForVRAM "qwen3-coder" none 10 1000 16 12
    ∧ selectModelForVRAM "qwen3-coder" none 10 0 16 12 = "qwen3-coder:14b" := by
  have h := selectModelForVRAM_coder_ignores_mid "qwen3-coder" none 10 16 12 0 1000
    (by decide) rfl
  exact ⟨h.1, h.2.2.1 (by norm_num) (by norm_num)⟩

/-! ## Model pull with fallback candidates
(src/unnamed/part_004 lines 255-356) -/

/-- The `add` closure of `buildModelCandidates`: skip falsy (empty) names and
duplicates, append otherwise. -/
def addCandidate (cs : List String) (m : String) : List String :=
  if m = "" then cs else if cs.contains m then cs else cs ++ [m]

/-- `buildModelCandidates` (src/unnamed/part_004 lines 255-279): primary name,
bare family name, `family:latest`, then the `qwen2.5-coder` sibling-family
substitutions when the primary is a tagged `qwen3-coder` model. -/
def buildModelCandidates (primaryModel : String) : List String :=
  let parts := jsSplitChar ':' primaryModel
  let name := parts.headD ""
  let tag := parts.getD 1 ""
  let cs := addCandidate (addCandidate (addCandidate [] primaryModel) name)
    (name ++ ":latest")
  if tag ≠ "" then
    if name = "qwen3-coder" then
      addCandidate (addCandidate (addCandidate cs ("qwen2.5-coder:" ++ tag))
        "qwen2.5-coder") "qwen2.5-coder:latest"
    else cs
  else cs

/-- The error thrown by `waitForModel` when a candidate never becomes present
within the timeout (src/unnamed/part_004 line 326). -/
def timeoutMsg (model tailLog : String) : String :=
  "Timed out waiting for model pull: " ++ model ++
    ". Tail of /tmp/ollama-pull.log:\n" ++ tailLog

/-- The final error thrown by `pullModelForVRAM` when every candidate failed
(src/unnamed/part_004 lines 350-355). -/
def pullFailMsg (primaryModel : String) (lastError : Option String) : String :=
  "Model pull failed for all candidates. " ++
  "Primary was \"" ++ primaryModel ++ "\". " ++
  "Set MODEL_OVERRIDE in .env to a valid Ollama model name (for example, one that works with: ollama pull <model>). " ++
  "Last error: " ++ (lastError.getD "unknown error")

deriving instance DecidableEq for Except

structure PullOutcome where
  attempts : List String
  result : Except String String
deriving DecidableEq

/-- The candidate loop of `pullModelForVRAM`: `succeeds c` tells whether the
background pull of candidate `c` reports present-and-complete in time, and
`tailLog c` is the tail of `/tmp/ollama-pull.log` on its timeout. -/
def pullGo (primaryModel : String) (succeeds : String → Bool)
    (tailLog : String → String) :
    List String → List String → Option String → PullOutcome
  | [], attempted, lastErr => ⟨attempted, .error (pullFailMsg primaryModel lastErr)⟩
  | c :: rest, attempted, _lastErr =>
    if succeeds c then ⟨attempted ++ [c], .ok c⟩
    else pullGo primaryModel succeeds tailLog rest (attempted ++ [c])
      (some (timeoutMsg c (tailLog c)))

/-- `pullModelForVRAM` (src/unnamed/part_004 lines 329-356): select primary
from VRAM, try all fallback candidates in order, throw the composed error when
all fail. -/
def pullModelForVRAM (family : String) (override : Option String)
    (low mid high vram : Nat) (succeeds : String → Bool)
    (tailLog : String → String) : PullOutcome :=
  let primaryModel := selectModelForVRAM family override low mid high vram
  pullGo primaryModel succeeds tailLog (buildModelCandidates primaryModel) [] none

/-- The `lastError` value after an all-failing pass over `cs`. -/
def lastCandidateError (tailLog : String → String) :
    List String → Option String → Option String
  | [], lastErr => lastErr
  | c :: rest, _ => lastCandidateError tailLog rest (some (timeoutMsg c (tailLog c)))

/-- After an all-failing pass, `lastError` is the timeout error of the last
candidate. -/
theorem lastCandidateError_append (tailLog : String → String) (cs : List String)
    (c : String) (lastErr : Option String) :
    lastCandidateError tailLog (cs ++ [c]) lastErr = some (timeoutMsg c (tailLog c)) := by
  induction cs generalizing lastErr with
  | nil => simp [lastCandidateError]
  | cons d ds ih => simp [lastCandidateError, ih]

def isErr : Except String String → Bool
  | .error _ => true
  | .ok _ => false

/-- Whether a pull result is an error whose message contains `s`. -/
def errorMentions (r : Except String String) (s : String) : Bool :=
  match r with
  | .error m => strIncludes m s
  | .ok _ => false

/-- Helper: `pullGo` under an always-failing oracle visits every remaining
candidate in order and throws the composed final error, whose `lastError`
component is the timeout error of the last candidate tried. -/
theorem pullGo_allFail (primaryModel : String) (succeeds : String → Bool)
    (tailLog : String → String) (cs attempted : List String)
    (lastErr : Option String) (hf : ∀ c, succeeds c = false) :
    pullGo primaryModel succeeds tailLog cs attempted lastErr =
      ⟨attempted ++ cs,
        .error (pullFailMsg primaryModel (lastCandidateError tailLog cs lastErr))⟩ := by
  induction cs generalizing attempted lastErr with
  | nil => simp [pullGo, lastCandidateError]
  | cons c rest ih => simp [pullGo, hf c, ih, lastCandidateError]

/-- C3 (counterexample): with primary model `qwen3-coder:14b` (selected for
12 GB of VRAM with the default thresholds) and no candidate ever becoming
present, the attempted candidate `qwen2.5-coder:14b` does not occur in the
final error message: the error names only the primary candidate and the last
candidate's timeout error, not all attempted names. -/
theorem pullModelForVRAM_error_cex :
    ("qwen2.5-coder:14b" ∈
        (pullModelForVRAM "qwen3-coder" none 10 12 16 12
          (fun _ => false) (fun _ => "")).attempts)
    ∧ isErr (pullModelForVRAM "qwen3-coder" none 10 12 16 12
        (fun _ => false) (fun _ => "")).result = true
    ∧ errorMentions
        (pullModelForVRAM "qwen3-coder" none 10 12 16 12
          (fun _ => false) (fun _ => "")).result "qwen2.5-coder:14b" = false := by
  refine ⟨by decide, by decide, by decide⟩

/-- C3 (amended): when no candidate ever becomes present,
`pullModelForVRAM` attempts every fallback candidate of
`buildModelCandidates` in the documented order before failing, and the error
it finally throws names the primary candidate and carries the last attempted
candidate's timeout error (it does not list all attempted names). -/
theorem pullModelForVRAM_allFail (family : String) (override : Option String)
    (low mid high vram : Nat) (succeeds : String → Bool)
    (tailLog : String → String) (hf : ∀ c, succeeds c = false) :
    (pullModelForVRAM family override low mid high vram succeeds tailLog).attempts
      = buildModelCandidates (selectModelForVRAM family override low mid high vram)
    ∧ (pullModelForVRAM family override low mid high vram succeeds tailLog).result
      = .error (pullFailMsg (selectModelForVRAM family override low mid high vram)
          (lastCandidateError tailLog
            (buildModelCandidates (selectModelForVRAM family override low mid high vram))
            none)) := by
  unfold pullModelForVRAM
  rw [pullGo_allFail _ _ _ _ _ _ hf]
  simp

/-- Witness for `pullModelForVRAM_allFail` at concrete inputs. -/
theorem pullModelForVRAM_allFail_witness :
    (pullModelForVRAM "qwen3-coder" none 10 12 16 12
        (fun _ => false) (fun _ => "LOG")).attempts
      = buildModelCandidates (selectModelForVRAM "qwen3-coder" none 10 12 16 12)
    ∧ (pullModelForVRAM "qwen3-coder" none 10 12 16 12
        (fun _ => false) (fun _ => "LOG")).result
      = .error (pullFailMsg (selectModelForVRAM "qwen3-coder" none 10 12 16 12)
          (lastCandidateError (fun _ => "LOG")
            (buildModelCandidates (selectModelForVRAM "qwen3-coder" none 10 12 16 12))
            none)) :=
  pullModelForVRAM_allFail "qwen3-coder" none 10 12 16 12
    (fun _ => false) (fun _ => "LOG") (fun _ => rfl)

/-! ## SSH connection retry (src/unnamed/part_004 lines 26-142)

A connection attempt against one address either succeeds or fails with an
error carrying an optional `code` and a `message`; the oracle
`oracle attempt address` gives the outcome of `connectOnce` for the given
retry round and address (`none` = connected). -/

structure ConnError where
  code : Option String
  message : String
deriving DecidableEq

/-- `isRetryableConnectError` (src/unnamed/part_004 lines 26-32). -/
def isRetryableConnectError (e : ConnError) : Bool :=
  (match e.code with
   | some c => c == "ECONNREFUSED" || c == "ECONNRESET" || c == "ETIMEDOUT"
       || c == "EHOSTUNREACH" || c == "ENETUNREACH"
   | none => false)
  || (let msg := lowerStr e.message
      strIncludes msg "econnrefused" || strIncludes msg "econnreset"
        || strIncludes msg "timed out")

inductive RoundOutcome where
  | success (host : String)
  | abort (e : ConnError)
  | exhausted (lastErr : Option ConnError)
deriving DecidableEq

/-- The inner `for (const hostAddress of addresses)` loop of
`connectWithRetry`: returns the addresses attempted this round and how the
round ended (success, abort on a non-retryable error, or all addresses
failed retryably). -/
def tryRound (oracle : Nat → String → Option ConnError) (attempt : Nat) :
    List String → Option ConnError → List String × RoundOutcome
  | [], lastErr => ([], .exhausted lastErr)
  | a :: rest, _ =>
    match oracle attempt a with
    | none => ([a], .success a)
    | some e =>
      if isRetryableConnectError e then
        let r := tryRound oracle attempt rest (some e)
        (a :: r.1, r.2)
      else ([a], .abort e)

structure ConnectOutcome where
  trace : List (Nat × String)
  sleeps : List Nat
  result : Except ConnError String
deriving DecidableEq

/-- The outer `for (let attempt = 1; ...)` loop of `connectWithRetry`,
with the remaining round count as fuel.  Records every (round, address)
attempt and every backoff sleep `min(2000 * attempt, 10000)`. -/
def connectLoop (oracle : Nat → String → Option ConnError)
    (addresses : List String) :
    Nat → Nat → Option ConnError → ConnectOutcome
  | 0, _, lastErr => ⟨[], [], .error (lastErr.getD ⟨none, "SSH connection failed"⟩)⟩
  | n + 1, attempt, lastErr =>
    let round := tryRound oracle attempt addresses lastErr
    let trace0 := round.1.map (fun a => (attempt, a))
    match round.2 with
    | .success a => ⟨trace0, [], .ok a⟩
    | .abort e => ⟨trace0, [], .error e⟩
    | .exhausted le =>
      let rest := connectLoop oracle addresses n (attempt + 1) le
      ⟨trace0 ++ rest.trace, min (2000 * attempt) 10000 :: rest.sleeps, rest.result⟩

/-- `connectWithRetry` (src/unnamed/part_004 lines 118-142) with
`maxAttempts` from `VAST_SSH_CONNECT_RETRIES` (default 5). -/
def connectWithRetry (maxAttempts : Nat) (addresses : List String)
    (oracle : Nat → String → Option ConnError) : ConnectOutcome :=
  connectLoop oracle addresses maxAttempts 1 none

/-- Every address attempted in a round, except possibly the one the round
ended at, failed with a retryable error. -/
theorem tryRound_dropLast_retryable (oracle : Nat → String → Option ConnError)
    (attempt : Nat) (addrs : List String) (le : Option ConnError) :
    ∀ a ∈ (tryRound oracle attempt addrs le).1.dropLast,
      ∃ e, oracle attempt a = some e ∧ isRetryableConnectError e = true := by
  induction addrs generalizing le with
  | nil => simp [tryRound]
  | cons x rest ih =>
    intro a ha
    rcases hx : oracle attempt x with _ | e
    · simp [tryRound, hx] at ha
    · by_cases hr : isRetryableConnectError e = true
      · simp only [tryRound, hx, hr, if_true] at ha
        rcases hnil : (tryRound oracle attempt rest (some e)).1 with _ | ⟨y, ys⟩
        · rw [hnil] at ha; simp at ha
        · rw [hnil] at ha
          rw [List.dropLast_cons_of_ne_nil (by simp)] at ha
          rcases List.mem_cons.mp ha with rfl | ha'
          · exact ⟨e, hx, hr⟩
          · exact ih (some e) a (by rw [hnil]; exact ha')
      · rw [Bool.not_eq_true] at hr
        simp [tryRound, hx, hr] at ha

/-- When a round is exhausted, every address attempted in it failed with a
retryable error. -/
theorem tryRound_exhausted_retryable (oracle : Nat → String → Option ConnError)
    (attempt : Nat) (addrs : List String) (le le' : Option ConnError)
    (h : (tryRound oracle attempt addrs le).2 = .exhausted le') :
    ∀ a ∈ (tryRound oracle attempt addrs le).1,
      ∃ e, oracle attempt a = some e ∧ isRetryableConnectError e = true := by
  induction addrs generalizing le with
  | nil => simp [tryRound]
  | cons x rest ih =>
    intro a ha
    rcases hx : oracle attempt x with _ | e
    · simp [tryRound, hx] at h
    · by_cases hr : isRetryableConnectError e = true
      · simp only [tryRound, hx, hr, if_true] at ha h
        rcases List.mem_cons.mp ha with rfl | ha'
        · exact ⟨e, hx, hr⟩
        · exact ih (some e) h a ha'
      · rw [Bool.not_eq_true] at hr
        simp [tryRound, hx, hr] at h

/-- A round attempts at most every address once. -/
theorem tryRound_length (oracle : Nat → String → Option ConnError)
    (attempt : Nat) (addrs : List String) (le : Option ConnError) :
    (tryRound oracle attempt addrs le).1.length ≤ addrs.length := by
  induction addrs generalizing le with
  | nil => simp [tryRound]
  | cons x rest ih =>
    rcases hx : oracle attempt x with _ | e
    · simp [tryRound, hx]
    · by_cases hr : isRetryableConnectError e = true
      · simp only [tryRound, hx, hr, if_true, List.length_cons]
        exact Nat.succ_le_succ (ih (some e))
      · rw [Bool.not_eq_true] at hr
        simp [tryRound, hx, hr]

/-- A round ending in success ends at the address that connected. -/
theorem tryRound_success (oracle : Nat → String → Option ConnError)
    (attempt : Nat) (addrs : List String) (le : Option ConnError) (a : String)
    (h : (tryRound oracle attempt addrs le).2 = .success a) :
    ∃ pre, (tryRound oracle attempt addrs le).1 = pre ++ [a]
      ∧ oracle attempt a = none := by
  induction addrs generalizing le with
  | nil => simp [tryRound] at h
  | cons x rest ih =>
    rcases hx : oracle attempt x with _ | e
    · simp only [tryRound, hx] at h ⊢
      simp at h
      subst h
      exact ⟨[], by simp, hx⟩
    · by_cases hr : isRetryableConnectError e = true
      · simp only [tryRound, hx, hr, if_true] at h ⊢
        obtain ⟨pre, hpre, hora⟩ := ih (some e) h
        exact ⟨x :: pre, by simp [hpre], hora⟩
      · rw [Bool.not_eq_true] at hr
        simp [tryRound, hx, hr] at h

/-- A round ending in abort ends at the address whose error was
non-retryable, and throws exactly that error. -/
theorem tryRound_abort (oracle : Nat → String → Option ConnError)
    (attempt : Nat) (addrs : List String) (le : Option ConnError) (e : ConnError)
    (h : (tryRound oracle attempt addrs le).2 = .abort e) :
    ∃ pre a, (tryRound oracle attempt addrs le).1 = pre ++ [a]
      ∧ oracle attempt a = some e ∧ isRetryableConnectError e = false := by
  induction addrs generalizing le with
  | nil => simp [tryRound] at h
  | cons x rest ih =>
    rcases hx : oracle attempt x with _ | e'
    · simp [tryRound, hx] at h
    · by_cases hr : isRetryableConnectError e' = true
      · simp only [tryRound, hx, hr, if_true] at h ⊢
        obtain ⟨pre, a, hpre, hora, hnr⟩ := ih (some e') h
        exact ⟨x :: pre, a, by simp [hpre], hora, hnr⟩
      · rw [Bool.not_eq_true] at hr
        simp only [tryRound, hx, hr] at h ⊢
        simp at h
        subst h
        simp only [Bool.false_eq_true, if_false]
        exact ⟨[], x, by simp, hx, hr⟩

/-- Every backoff delay performed by the retry loop is capped at 10000 ms. -/
theorem connectLoop_sleeps (oracle : Nat → String → Option ConnError)
    (addrs : List String) :
    ∀ n attempt le, ∀ d ∈ (connectLoop oracle addrs n attempt le).sleeps,
      d ≤ 10000 := by
  intro n
  induction n with
  | zero => intro attempt le d hd; simp [connectLoop] at hd
  | succ n ih =>
    intro attempt le d hd
    rcases h2 : (tryRound oracle attempt addrs le).2 with a | e | le'
    · simp [connectLoop, h2] at hd
    · simp [connectLoop, h2] at hd
    · simp only [connectLoop, h2] at hd
      rcases List.mem_cons.mp hd with rfl | hd'
      · exact Nat.min_le_right _ _
      · exact ih (attempt + 1) le' d hd'

/-- The retry loop makes at most `rounds * addresses` connect attempts. -/
theorem connectLoop_trace_length (oracle : Nat → String → Option ConnError)
    (addrs : List String) :
    ∀ n attempt le,
      (connectLoop oracle addrs n attempt le).trace.length ≤ n * addrs.length := by
  intro n
  induction n with
  | zero => intro attempt le; simp [connectLoop]
  | succ n ih =>
    intro attempt le
    have hr := tryRound_length oracle attempt addrs le
    rcases h2 : (tryRound oracle attempt addrs le).2 with a | e | le'
    · simp only [connectLoop, h2, List.length_map]
      calc (tryRound oracle attempt addrs le).1.length ≤ addrs.length := hr
        _ ≤ (n + 1) * addrs.length := Nat.le_mul_of_pos_left _ (Nat.succ_pos n)
    · simp only [connectLoop, h2, List.length_map]
      calc (tryRound oracle attempt addrs le).1.length ≤ addrs.length := hr
        _ ≤ (n + 1) * addrs.length := Nat.le_mul_of_pos_left _ (Nat.succ_pos n)
    · simp only [connectLoop, h2, List.length_append, List.length_map]
      have := ih (attempt + 1) le'
      have hmul : (n + 1) * addrs.length = addrs.length + n * addrs.length := by ring
      omega

/-- Every attempt in the trace, except possibly the final one, failed with a
retryable error. -/
theorem connectLoop_dropLast_retryable (oracle : Nat → String → Option ConnError)
    (addrs : List String) :
    ∀ n attempt le, ∀ q ∈ (connectLoop oracle addrs n attempt le).trace.dropLast,
      ∃ e, oracle q.1 q.2 = some e ∧ isRetryableConnectError e = true := by
  intro n
  induction n with
  | zero => intro attempt le q hq; simp [connectLoop] at hq
  | succ n ih =>
    intro attempt le q hq
    rcases h2 : (tryRound oracle attempt addrs le).2 with a | e | le'
    · simp only [connectLoop, h2, ← List.map_dropLast, List.mem_map] at hq
      obtain ⟨a', ha', rfl⟩ := hq
      exact tryRound_dropLast_retryable oracle attempt addrs le a' ha'
    · simp only [connectLoop, h2, ← List.map_dropLast, List.mem_map] at hq
      obtain ⟨a', ha', rfl⟩ := hq
      exact tryRound_dropLast_retryable oracle attempt addrs le a' ha'
    · simp only [connectLoop, h2] at hq
      rcases hrt : (connectLoop oracle addrs n (attempt + 1) le').trace with _ | ⟨y, ys⟩
      · rw [hrt, List.append_nil, ← List.map_dropLast, List.mem_map] at hq
        obtain ⟨a', ha', rfl⟩ := hq
        exact tryRound_dropLast_retryable oracle attempt addrs le a' ha'
      · rw [hrt, List.dropLast_append_of_ne_nil _ (by simp), List.mem_append] at hq
        rcases hq with hq0 | hq1
        · rw [List.mem_map] at hq0
          obtain ⟨a', ha', rfl⟩ := hq0
          exact tryRound_exhausted_retryable oracle attempt addrs le le' h2 a' ha'
        · exact ih (attempt + 1) le' q (by rw [hrt]; exact hq1)

/-- If the final attempt in the trace failed with a non-retryable error, the
loop threw exactly that error (it aborted there). -/
theorem connectLoop_abort_result (oracle : Nat → String → Option ConnError)
    (addrs : List String) :
    ∀ n attempt le pre q e,
      (connectLoop oracle addrs n attempt le).trace = pre ++ [q] →
      oracle q.1 q.2 = some e → isRetryableConnectError e = false →
      (connectLoop oracle addrs n attempt le).result = .error e := by
  intro n
  induction n with
  | zero =>
    intro attempt le pre q e htr _ _
    simp [connectLoop] at htr
  | succ n ih =>
    intro attempt le pre q e htr hq hnr
    rcases h2 : (tryRound oracle attempt addrs le).2 with a | e' | le'
    · obtain ⟨pre', hpre', hora⟩ := tryRound_success oracle attempt addrs le a h2
      simp only [connectLoop, h2] at htr
      have hqa : q = (attempt, a) := by
        have h1 : (pre ++ [q]).getLast? = some q := List.getLast?_concat pre
        rw [← htr, hpre', List.map_append] at h1
        simp at h1
        exact h1.symm
      rw [hqa] at hq
      simp only at hq
      rw [hora] at hq
      exact absurd hq (by simp)
    · obtain ⟨pre', a, hpre', hora, hnr'⟩ := tryRound_abort oracle attempt addrs le e' h2
      simp only [connectLoop, h2] at htr ⊢
      have hqa : q = (attempt, a) := by
        have h1 : (pre ++ [q]).getLast? = some q := List.getLast?_concat pre
        rw [← htr, hpre', List.map_append] at h1
        simp at h1
        exact h1.symm
      rw [hqa] at hq
      simp only at hq
      rw [hora] at hq
      have : e' = e := by injection hq
      rw [this]
    · simp only [connectLoop, h2] at htr ⊢
      rcases hrt : (connectLoop oracle addrs n (attempt + 1) le').trace with _ | ⟨y, ys⟩
      · rw [hrt, List.append_nil] at htr
        have hqmem : q ∈ (tryRound oracle attempt addrs le).1.map
            (fun a => (attempt, a)) := by
          rw [htr]; exact List.mem_append_right pre (List.mem_singleton_self q)
        rw [List.mem_map] at hqmem
        obtain ⟨a', ha', rfl⟩ := hqmem
        obtain ⟨e'', hora, hretry⟩ :=
          tryRound_exhausted_retryable oracle attempt addrs le le' h2 a' ha'
        simp only at hq
        rw [hora] at hq
        have : e'' = e := by injection hq
        rw [this] at hretry
        rw [hretry] at hnr
        exact absurd hnr (by simp)
      · have hne : (connectLoop oracle addrs n (attempt + 1) le').trace ≠ [] := by
          rw [hrt]; simp
        have hlast : (connectLoop oracle addrs n (attempt + 1) le').trace.getLast?
            = some q := by
          have h1 : (pre ++ [q]).getLast? = some q := List.getLast?_concat pre
          rw [← htr, List.getLast?_append_of_ne_nil _ hne] at h1
          exact h1
        have hdec := List.dropLast_append_getLast? q hlast
        exact ih (attempt + 1) le'
          (connectLoop oracle addrs n (attempt + 1) le').trace.dropLast q e
          hdec.symm hq hnr

/-- C6: `connectWithRetry` retries only retryable network failures — every
attempt in the trace except possibly the final one failed with an error
`isRetryableConnectError` accepts — across the resolved addresses and a
bounded number of rounds (at most `maxAttempts * addresses` attempts), with
every backoff delay capped at the fixed ceiling of 10000 ms; and if the final
attempt fails with a non-retryable error (e.g. an authentication failure),
the connect aborts immediately with exactly that error and no further
attempts are made. -/
theorem connectWithRetry_policy (ma : Nat) (addrs : List String)
    (oracle : Nat → String → Option ConnError) :
    (∀ q ∈ (connectWithRetry ma addrs oracle).trace.dropLast,
        ∃ e, oracle q.1 q.2 = some e ∧ isRetryableConnectError e = true)
    ∧ (∀ d ∈ (connectWithRetry ma addrs oracle).sleeps, d ≤ 10000)
    ∧ (connectWithRetry ma addrs oracle).trace.length ≤ ma * addrs.length
    ∧ (∀ pre q e, (connectWithRetry ma addrs oracle).trace = pre ++ [q] →
        oracle q.1 q.2 = some e → isRetryableConnectError e = false →
        (connectWithRetry ma addrs oracle).result = .error e) :=
  ⟨connectLoop_dropLast_retryable oracle addrs ma 1 none,
   connectLoop_sleeps oracle addrs ma 1 none,
   connectLoop_trace_length oracle addrs ma 1 none,
   fun pre q e htr hq hnr =>
     connectLoop_abort_result oracle addrs ma 1 none pre q e htr hq hnr⟩

/-- A concrete connect oracle: the first address fails with a retryable
`ECONNREFUSED`; the second fails with a non-retryable authentication error. -/
def connOracleW : Nat → String → Option ConnError := fun _ a =>
  if a = "h1" then some ⟨some "ECONNREFUSED", "connect ECONNREFUSED 1.2.3.4:22"⟩
  else some ⟨none, "All configured authentication methods failed"⟩

/-- Witness for `connectWithRetry_policy`: with `connOracleW` the trace is
`[(1, h1), (1, h2)]`, the first attempt failed retryably, and the run aborts
with the authentication error. -/
theorem connectWithRetry_policy_witness :
    (∃ e, connOracleW 1 "h1" = some e ∧ isRetryableConnectError e = true)
    ∧ (connectWithRetry 5 ["h1", "h2"] connOracleW).result
        = .error ⟨none, "All configured authentication methods failed"⟩ := by
  have h := connectWithRetry_policy 5 ["h1", "h2"] connOracleW
  refine ⟨h.1 (1, "h1") (by decide), ?_⟩
  exact h.2.2.2 [(1, "h1")] (1, "h2")
    ⟨none, "All configured authentication methods failed"⟩
    (by decide) (by decide) (by decide)

/-! ## Remote command execution retry (src/unnamed/part_004 lines 726-778)

`run1`/`run2` are the outcomes of the first and (if reached) second
`runOnce()` of the command; `reconnect` is the outcome of the
`connect()` performed between them (`none` = reconnected fine). -/

structure ExecOutcome where
  runs : Nat
  reconnected : Bool
  result : Except ConnError String
deriving DecidableEq

/-- The "not connected" failure signature tested by `executeRemote`
(`(err?.message || '').toLowerCase().includes('not connected')`). -/
def isNotConnectedErr (e : ConnError) : Bool :=
  strIncludes (lowerStr e.message) "not connected"

/-- `executeRemote` (src/unnamed/part_004 lines 726-778), after the session
exists: run the command once; only on a "not connected" failure disconnect,
reconnect and run it exactly once more. -/
def executeRemote (run1 : Except ConnError String) (reconnect : Option ConnError)
    (run2 : Except ConnError String) : ExecOutcome :=
  match run1 with
  | .ok s => ⟨1, false, .ok s⟩
  | .error e =>
    if isNotConnectedErr e then
      match reconnect with
      | some ce => ⟨1, true, .error ce⟩
      | none => ⟨2, true, run2⟩
    else ⟨1, false, .error e⟩

/-- C7: `executeRemote` runs the command at most twice; a successful first
run or a first failure without the "not connected" signature returns after a
single run with no reconnect; a "not connected" failure (with the reconnect
succeeding) reconnects and reruns the command exactly once, propagating the
second outcome whatever it is; and a second run happens precisely when the
first failed with the "not connected" signature. -/
theorem executeRemote_retry_policy (run1 : Except ConnError String)
    (reconnect : Option ConnError) (run2 : Except ConnError String) :
    (executeRemote run1 reconnect run2).runs ≤ 2
    ∧ (∀ s, run1 = .ok s → executeRemote run1 reconnect run2 = ⟨1, false, .ok s⟩)
    ∧ (∀ e, run1 = .error e → isNotConnectedErr e = false →
        executeRemote run1 reconnect run2 = ⟨1, false, .error e⟩)
    ∧ (∀ e, run1 = .error e → isNotConnectedErr e = true → reconnect = none →
        executeRemote run1 reconnect run2 = ⟨2, true, run2⟩)
    ∧ ((executeRemote run1 reconnect run2).runs = 2 ↔
        reconnect = none ∧ ∃ e, run1 = .error e ∧ isNotConnectedErr e = true) := by
  rcases run1 with e | s
  · by_cases hnc : isNotConnectedErr e = true
    · rcases reconnect with _ | ce
      · refine ⟨by simp [executeRemote, hnc], by simp, ?_, ?_, ?_⟩
        · intro e' he' hnc'
          rw [Except.error.injEq] at he'
          rw [← he', hnc] at hnc'
          exact absurd hnc' (by simp)
        · intro e' he' _ _
          simp [executeRemote, hnc]
        · simp [executeRemote, hnc]
      · refine ⟨by simp [executeRemote, hnc], by simp, ?_, ?_, ?_⟩
        · intro e' he' hnc'
          rw [Except.error.injEq] at he'
          rw [← he', hnc] at hnc'
          exact absurd hnc' (by simp)
        · intro e' _ _ hrc
          exact absurd hrc (by simp)
        · simp [executeRemote, hnc]
    · rw [Bool.not_eq_true] at hnc
      refine ⟨by simp [executeRemote, hnc], by simp, ?_, ?_, ?_⟩
      · intro e' he' _
        rw [Except.error.injEq] at he'
        rw [← he']
        simp [executeRemote, hnc]
      · intro e' he' hnc' _
        rw [Except.error.injEq] at he'
        rw [← he', hnc] at hnc'
        exact absurd hnc' (by simp)
      · simp only [executeRemote, hnc, Bool.false_eq_true, if_false]
        constructor
        · intro h; exact absurd h (by simp)
        · rintro ⟨_, e', he', hnc'⟩
          rw [Except.error.injEq] at he'
          rw [← he', hnc] at hnc'
          exact absurd hnc' (by simp)
  · refine ⟨by simp [executeRemote], by simp [executeRemote], ?_, ?_, ?_⟩
    · intro e' he' _; exact absurd he' (by simp)
    · intro e' he' _ _; exact absurd he' (by simp)
    · simp [executeRemote]

/-- Witness for `executeRemote_retry_policy` at concrete inputs. -/
theorem executeRemote_retry_policy_witness :
    executeRemote (.error ⟨none, "Not connected"⟩) none (.error ⟨none, "boom"⟩)
      = ⟨2, true, .error ⟨none, "boom"⟩⟩
    ∧ executeRemote (.error ⟨none, "Auth failed"⟩) none (.ok "x")
      = ⟨1, false, .error ⟨none, "Auth failed"⟩⟩ :=
  ⟨(executeRemote_retry_policy (.error ⟨none, "Not connected"⟩) none
      (.error ⟨none, "boom"⟩)).2.2.2.1 ⟨none, "Not connected"⟩ rfl (by decide) rfl,
   (executeRemote_retry_policy (.error ⟨none, "Auth failed"⟩) none
      (.ok "x")).2.2.1 ⟨none, "Auth failed"⟩ rfl (by decide)⟩

/-! ## Gateway health check (src/unnamed/part_004 lines 371-407)

`running` is the output of the `pgrep ...; echo $?` probe, `portListening`
the output of the `ss -ltnp | grep :port` probe, and `tailLog` the tail of
the gateway log. -/

inductive GatewayAction where
  | startFresh
  | restartPort
  | restartBadConfig
  | restartAuthMissing
  | restartUnknownModel
  | alreadyRunning
deriving DecidableEq

/-- The decision taken by `ensureGatewayRunning`
(src/unnamed/part_004 lines 371-407). -/
def ensureGatewayRunning (running portListening tailLog : String) : GatewayAction :=
  if jsTrim running ≠ "0" then .startFresh
  else if jsTrim portListening = "" then .restartPort
  else if strIncludes tailLog "Invalid config at" || strIncludes tailLog "Config invalid"
    then .restartBadConfig
  else if strIncludes tailLog "No API key found for provider \"ollama\""
    then .restartAuthMissing
  else if strIncludes tailLog "Unknown model:" then .restartUnknownModel
  else .alreadyRunning

/-- Whether a `GatewayAction` invokes `startGateway`. -/
def callsStartGateway : GatewayAction → Bool
  | .alreadyRunning => false
  | _ => true

/-- C9: if the gateway process exists (`pgrep` reported status 0) and its
port is listening, but the gateway log tail contains the bad-config
signature "Unknown model:", `ensureGatewayRunning` restarts the gateway via
`startGateway` instead of reporting it healthy. -/
theorem ensureGatewayRunning_unknown_model (running portListening tailLog : String)
    (hrun : jsTrim running = "0") (hport : jsTrim portListening ≠ "")
    (hum : strIncludes tailLog "Unknown model:" = true) :
    callsStartGateway (ensureGatewayRunning running portListening tailLog) = true
    ∧ ensureGatewayRunning running portListening tailLog ≠ .alreadyRunning := by
  unfold ensureGatewayRunning
  rw [if_neg (by simp [hrun]), if_neg hport]
  split_ifs with h3 h4
  · exact ⟨rfl, by simp⟩
  · exact ⟨rfl, by simp⟩
  · exact ⟨rfl, by simp⟩

/-- Witness for `ensureGatewayRunning_unknown_model` at concrete inputs. -/
theorem ensureGatewayRunning_unknown_model_witness :
    callsStartGateway (ensureGatewayRunning "0\n" "LISTEN 0 4096 *:18789"
      "gateway starting\nUnknown model: qwen3-coder:14b\n") = true
    ∧ ensureGatewayRunning "0\n" "LISTEN 0 4096 *:18789"
        "gateway starting\nUnknown model: qwen3-coder:14b\n" ≠ .alreadyRunning :=
  ensureGatewayRunning_unknown_model "0\n" "LISTEN 0 4096 *:18789"
    "gateway starting\nUnknown model: qwen3-coder:14b\n"
    (by decide) (by decide) (by decide)

/-! ## File synchronization engine (src/unnamed/part_007)

Local and remote file trees are modelled as association lists keyed by
(subdir, relative path); a `File` carries the stat data the sync pass reads
(size, mtime) and the content it transfers.  Remote-transfer failures are
injected through oracles `upFail`/`downFail` giving the error message thrown
by `uploadFile`/`downloadFile` for a path, if any. -/

structure File where
  size : Nat
  mtime : Int
  content : String
deriving DecidableEq

/-- A file-system side, keyed by (subdir, relative path), in enumeration
order. -/
abbrev FS := List ((String × String) × File)

def fsLookup (fs : FS) (k : String × String) : Option File :=
  (fs.find? (fun e => e.1 == k)).map (fun e => e.2)

/-- Overwrite-or-create the file at key `k`. -/
def fsInsert (fs : FS) (k : String × String) (f : File) : FS :=
  (k, f) :: fs.filter (fun e => e.1 != k)

/-- The files of one subdir, as (path, file) pairs in enumeration order
(the maps built by `getLocalFiles`/`getRemoteFiles`). -/
def subdirFiles (fs : FS) (sd : String) : List (String × File) :=
  fs.filterMap (fun e => if e.1.1 = sd then some (e.1.2, e.2) else none)

def lookupA (l : List (String × File)) (p : String) : Option File :=
  (l.find? (fun e => e.1 == p)).map (fun e => e.2)

/-- JS `new Set([...as, ...bs])` iteration order: first occurrence kept. -/
def insertUnique (l : List String) (x : String) : List String :=
  if l.contains x then l else l ++ [x]

def uniqueKeys (l : List String) : List String :=
  l.foldl insertUnique []

/-- The backup filename `${subdir}_${path with separators replaced}_${ts}`
built by `backupFile` (src/unnamed/part_007 line 112). -/
def backupName (sd p : String) (ts : Nat) : String :=
  sd ++ "_"
    ++ String.mk (p.toList.map (fun c => if c == '/' || c == '\\' then '_' else c))
    ++ "_" ++ toString ts

/-- The decorated conflict filename of the keep-both branch
(src/unnamed/part_007 line 195): `path.replace(/(\.[^.]+)$/,
'.sync-conflict-local$1')` inserts `.sync-conflict-local` before a final
`.ext` suffix and leaves an extension-less path unchanged. -/
def conflictPath (p : String) : String :=
  let rev := p.toList.reverse
  let ext := rev.takeWhile (fun c => c != '.')
  if ext.length = rev.length ∨ ext.length = 0 then p
  else
    String.mk ((rev.drop (ext.length + 1)).reverse)
      ++ ".sync-conflict-local." ++ String.mk ext.reverse

/-- `resolveConflict` (src/unnamed/part_007 lines 123-137); `policy` is the
`SYNC_CONFLICT_POLICY` environment value. -/
def resolveConflict (policy : Option String) (localFile remoteFile : File) : String :=
  match jsOr policy "newest" with
  | "pc_wins" => "upload"
  | "vast_wins" => "download"
  | "keep_both" => "both"
  | _ => if localFile.mtime > remoteFile.mtime then "upload" else "download"

/-- The conflict test of `runSync` (src/unnamed/part_007 line 178): size
differs, or mtimes differ by more than 1000 ms. -/
def filesDiffer (lf rf : File) : Bool :=
  lf.size != rf.size || decide (1000 < (lf.mtime - rf.mtime).natAbs)

structure SyncResult where
  uploaded : Nat
  downloaded : Nat
  conflicts : List (String × String)
  errors : List (String × String)
deriving DecidableEq

structure World where
  localFS : FS
  remoteFS : FS
  backups : List (String × File)
  lastSync : Option Nat
deriving DecidableEq

/-- `uploadFile` (src/unnamed/part_007 lines 224-238): write the current
local content to the remote path.  The snapshot entry `lf` serves as
fallback when the current local entry is missing (unreachable in practice:
the snapshot listed the file). -/
def uploadFile (w : World) (sd p : String) (lf : File) : World :=
  { w with remoteFS := fsInsert w.remoteFS (sd, p) ((fsLookup w.localFS (sd, p)).getD lf) }

/-- `downloadFile` (src/unnamed/part_007 lines 240-256): fetch the current
remote content and write it to the local path. -/
def downloadFile (w : World) (sd p : String) (rf : File) : World :=
  { w with localFS := fsInsert w.localFS (sd, p) ((fsLookup w.remoteFS (sd, p)).getD rf) }

/-- `backupFile` (src/unnamed/part_007 lines 108-121): copy the current
local file, when it exists, to a timestamped name in the backup
directory. -/
def backupFile (w : World) (sd p : String) (now : Nat) : World :=
  match fsLookup w.localFS (sd, p) with
  | some cur => { w with backups := w.backups ++ [(backupName sd p now, cur)] }
  | none => w

/-- One iteration of the `for (const path of allPaths)` loop of `runSync`
(src/unnamed/part_007 lines 160-213).  `ls`/`rs` are the snapshot entries
`localFiles[path]`/`remoteFiles[path]`; a `some` from `upFail`/`downFail`
is the exception thrown by the corresponding transfer, caught by the
per-path `try`/`catch`. -/
def syncPath (dryRun : Bool) (policy : Option String)
    (upFail downFail : String → String → Option String) (now : Nat)
    (sd p : String) (ls rs : Option File) (st : World × SyncResult) :
    World × SyncResult :=
  let w := st.1
  let r := st.2
  match ls, rs with
  | some lf, none =>
    if dryRun then (w, { r with uploaded := r.uploaded + 1 })
    else
      match upFail sd p with
      | some m => (w, { r with errors := r.errors ++ [(sd ++ "/" ++ p, m)] })
      | none => (uploadFile w sd p lf, { r with uploaded := r.uploaded + 1 })
  | none, some rf =>
    if dryRun then (w, { r with downloaded := r.downloaded + 1 })
    else
      match downFail sd p with
      | some m => (w, { r with errors := r.errors ++ [(sd ++ "/" ++ p, m)] })
      | none => (downloadFile w sd p rf, { r with downloaded := r.downloaded + 1 })
  | some lf, some rf =>
    if filesDiffer lf rf then
      let resolution := resolveConflict policy lf rf
      let r := { r with conflicts := r.conflicts ++ [(sd ++ "/" ++ p, resolution)] }
      if dryRun then (w, r)
      else
        let w := backupFile w sd p now
        if resolution = "upload" ∨ resolution = "both" then
          match upFail sd p with
          | some m => (w, { r with errors := r.errors ++ [(sd ++ "/" ++ p, m)] })
          | none =>
            let w := uploadFile w sd p lf
            let r := { r with uploaded := r.uploaded + 1 }
            if resolution = "both" then
              let w := { w with localFS := fsInsert w.localFS (sd, conflictPath p) ((fsLookup w.localFS (sd, p)).getD lf) }
              match downFail sd p with
              | some m => (w, { r with errors := r.errors ++ [(sd ++ "/" ++ p, m)] })
              | none =>
                (downloadFile w sd p rf, { r with downloaded := r.downloaded + 1 })
            else (w, r)
        else if resolution = "download" then
          match downFail sd p with
          | some m => (w, { r with errors := r.errors ++ [(sd ++ "/" ++ p, m)] })
          | none =>
            (downloadFile w sd p rf, { r with downloaded := r.downloaded + 1 })
        else (w, r)
    else (w, r)
  | none, none => (w, r)

/-- One iteration of the `for (const subdir of subdirs)` loop of `runSync`
(src/unnamed/part_007 lines 154-214): snapshot both sides of the subdir,
union the path sets, then process each path against the snapshots. -/
def runSubdir (dryRun : Bool) (policy : Option String)
    (upFail downFail : String → String → Option String) (now : Nat)
    (sd : String) (st : World × SyncResult) : World × SyncResult :=
  let localFiles := subdirFiles st.1.localFS sd
  let remoteFiles := subdirFiles st.1.remoteFS sd
  let allPaths := uniqueKeys (localFiles.map Prod.fst ++ remoteFiles.map Prod.fst)
  allPaths.foldl
    (fun st' p => syncPath dryRun policy upFail downFail now sd p
      (lookupA localFiles p) (lookupA remoteFiles p) st') st

/-- `runSync` (src/unnamed/part_007 lines 139-222): process the three
logical folders in order, then persist the checkpoint timestamp unless the
pass was a dry run. -/
def runSync (dryRun : Bool) (policy : Option String)
    (upFail downFail : String → String → Option String) (now : Nat)
    (w : World) : World × SyncResult :=
  let st := (["public", "private", "artifacts"]).foldl
    (fun st' sd => runSubdir dryRun policy upFail downFail now sd st')
    (w, ⟨0, 0, [], []⟩)
  if dryRun then st
  else ({ st.1 with lastSync := some now }, st.2)

/-! ### Closed form of the sync result -/

/-- The per-path contribution to the sync result, as a pure function of the
snapshot entries and the failure oracles (specification side; compared with
`syncPath` below). -/
def pathDelta (dryRun : Bool) (policy : Option String)
    (upFail downFail : String → String → Option String)
    (sd p : String) (ls rs : Option File) : SyncResult :=
  match ls, rs with
  | some _, none =>
    if dryRun then ⟨1, 0, [], []⟩
    else
      match upFail sd p with
      | some m => ⟨0, 0, [], [(sd ++ "/" ++ p, m)]⟩
      | none => ⟨1, 0, [], []⟩
  | none, some _ =>
    if dryRun then ⟨0, 1, [], []⟩
    else
      match downFail sd p with
      | some m => ⟨0, 0, [], [(sd ++ "/" ++ p, m)]⟩
      | none => ⟨0, 1, [], []⟩
  | some lf, some rf =>
    if filesDiffer lf rf then
      let resolution := resolveConflict policy lf rf
      let c := [(sd ++ "/" ++ p, resolution)]
      if dryRun then ⟨0, 0, c, []⟩
      else
        if resolution = "upload" ∨ resolution = "both" then
          match upFail sd p with
          | some m => ⟨0, 0, c, [(sd ++ "/" ++ p, m)]⟩
          | none =>
            if resolution = "both" then
              match downFail sd p with
              | some m => ⟨1, 0, c, [(sd ++ "/" ++ p, m)]⟩
              | none => ⟨1, 1, c, []⟩
            else ⟨1, 0, c, []⟩
        else if resolution = "download" then
          match downFail sd p with
          | some m => ⟨0, 0, c, [(sd ++ "/" ++ p, m)]⟩
          | none => ⟨0, 1, c, []⟩
        else ⟨0, 0, c, []⟩
    else ⟨0, 0, [], []⟩
  | none, none => ⟨0, 0, [], []⟩

/-- Combine a sync result with a later contribution. -/
def addResult (r d : SyncResult) : SyncResult :=
  ⟨r.uploaded + d.uploaded, r.downloaded + d.downloaded,
   r.conflicts ++ d.conflicts, r.errors ++ d.errors⟩

theorem addResult_zero (r : SyncResult) : addResult r ⟨0, 0, [], []⟩ = r := by
  simp [addResult]

theorem zero_addResult (d : SyncResult) : addResult ⟨0, 0, [], []⟩ d = d := by
  simp [addResult]

theorem addResult_assoc (a b c : SyncResult) :
    addResult (addResult a b) c = addResult a (addResult b c) := by
  simp [addResult, Nat.add_assoc]

/-- `syncPath` updates the running result exactly by `pathDelta`. -/
theorem syncPath_result (dryRun : Bool) (policy : Option String)
    (upFail downFail : String → String → Option String) (now : Nat)
    (sd p : String) (ls rs : Option File) (st : World × SyncResult) :
    (syncPath dryRun policy upFail downFail now sd p ls rs st).2 =
      addResult st.2 (pathDelta dryRun policy upFail downFail sd p ls rs) := by
  rcases st with ⟨w, r⟩
  rcases ls with _ | lf <;> rcases rs with _ | rf
  · simp [syncPath, pathDelta, addResult]
  · cases dryRun
    · rcases hd : downFail sd p with _ | m <;>
        simp [syncPath, pathDelta, addResult, hd]
    · simp [syncPath, pathDelta, addResult]
  · cases dryRun
    · rcases hu : upFail sd p with _ | m <;>
        simp [syncPath, pathDelta, addResult, hu]
    · simp [syncPath, pathDelta, addResult]
  · by_cases hd : filesDiffer lf rf = true
    · cases dryRun
      · by_cases hup : resolveConflict policy lf rf = "upload"
        · rcases hu : upFail sd p with _ | m <;>
            simp [syncPath, pathDelta, addResult, hd, hup, hu]
        · by_cases hboth : resolveConflict policy lf rf = "both"
          · rcases hu : upFail sd p with _ | m
            · rcases hdo : downFail sd p with _ | m' <;>
                simp [syncPath, pathDelta, addResult, hd, hboth, hu, hdo]
            · simp [syncPath, pathDelta, addResult, hd, hboth, hu]
          · by_cases hdl : resolveConflict policy lf rf = "download"
            · rcases hdo : downFail sd p with _ | m' <;>
                simp [syncPath, pathDelta, addResult, hd, hup, hboth, hdl, hdo]
            · simp [syncPath, pathDelta, addResult, hd, hup, hboth, hdl]
      · simp [syncPath, pathDelta, addResult, hd]
    · rw [Bool.not_eq_true] at hd
      cases dryRun <;> simp [syncPath, pathDelta, addResult, hd]

/-- Sum of per-path contributions over a path list. -/
def sumDeltas (g : String → SyncResult) (paths : List String) : SyncResult :=
  paths.foldl (fun acc p => addResult acc (g p)) ⟨0, 0, [], []⟩

theorem foldl_addResult_eq (g : String → SyncResult) (paths : List String)
    (init : SyncResult) :
    paths.foldl (fun acc p => addResult acc (g p)) init
      = addResult init (sumDeltas g paths) := by
  induction paths generalizing init with
  | nil => simp [sumDeltas, addResult_zero]
  | cons p rest ih =>
    show rest.foldl _ (addResult init (g p)) = _
    rw [ih (addResult init (g p)), addResult_assoc]
    have : sumDeltas g (p :: rest) = addResult (g p) (sumDeltas g rest) := by
      show rest.foldl _ (addResult ⟨0, 0, [], []⟩ (g p)) = _
      rw [ih (addResult ⟨0, 0, [], []⟩ (g p)), addResult_assoc, zero_addResult]
    rw [this]

theorem sumDeltas_cons (g : String → SyncResult) (p : String) (rest : List String) :
    sumDeltas g (p :: rest) = addResult (g p) (sumDeltas g rest) := by
  show rest.foldl _ (addResult ⟨0, 0, [], []⟩ (g p)) = _
  rw [foldl_addResult_eq, addResult_assoc, zero_addResult]

/-- The per-subdir contribution to the sync result, as a pure function of
the two snapshots of that subdir. -/
def subdirDelta (dryRun : Bool) (policy : Option String)
    (upFail downFail : String → String → Option String)
    (sd : String) (lsnap rsnap : List (String × File)) : SyncResult :=
  sumDeltas
    (fun p => pathDelta dryRun policy upFail downFail sd p
      (lookupA lsnap p) (lookupA rsnap p))
    (uniqueKeys (lsnap.map Prod.fst ++ rsnap.map Prod.fst))

/-- Folding `syncPath` over any path list updates the result by the sum of
the per-path deltas. -/
theorem foldl_syncPath_result (dryRun : Bool) (policy : Option String)
    (upFail downFail : String → String → Option String) (now : Nat)
    (sd : String) (lsnap rsnap : List (String × File)) (paths : List String)
    (st : World × SyncResult) :
    (paths.foldl
      (fun st' p => syncPath dryRun policy upFail downFail now sd p
        (lookupA lsnap p) (lookupA rsnap p) st') st).2
      = addResult st.2
          (sumDeltas
            (fun p => pathDelta dryRun policy upFail downFail sd p
              (lookupA lsnap p) (lookupA rsnap p)) paths) := by
  induction paths generalizing st with
  | nil => simp [sumDeltas, addResult_zero]
  | cons p rest ih =>
    show (rest.foldl _ (syncPath dryRun policy upFail downFail now sd p
      (lookupA lsnap p) (lookupA rsnap p) st)).2 = _
    rw [ih, syncPath_result, addResult_assoc, sumDeltas_cons]

/-- `runSubdir` updates the result by the subdir's delta, computed from the
snapshots of the incoming world. -/
theorem runSubdir_result (dryRun : Bool) (policy : Option String)
    (upFail downFail : String → String → Option String) (now : Nat)
    (sd : String) (st : World × SyncResult) :
    (runSubdir dryRun policy upFail downFail now sd st).2
      = addResult st.2
          (subdirDelta dryRun policy upFail downFail sd
            (subdirFiles st.1.localFS sd) (subdirFiles st.1.remoteFS sd)) := by
  unfold runSubdir subdirDelta
  exact foldl_syncPath_result dryRun policy upFail downFail now sd _ _ _ st

/-! ### Frame property: processing one subdir leaves the other subdirs'
file listings unchanged -/

theorem subdirFiles_cons (e : (String × String) × File) (rest : FS) (sd' : String) :
    subdirFiles (e :: rest) sd' =
      (if e.1.1 = sd' then [(e.1.2, e.2)] else []) ++ subdirFiles rest sd' := by
  simp only [subdirFiles, List.filterMap_cons]
  by_cases hsd : e.1.1 = sd' <;> simp [hsd]

theorem subdirFiles_filter_ne (fs : FS) (k : String × String) (sd' : String)
    (h : k.1 ≠ sd') :
    subdirFiles (fs.filter (fun e => e.1 != k)) sd' = subdirFiles fs sd' := by
  induction fs with
  | nil => rfl
  | cons e rest ih =>
    rw [List.filter_cons]
    by_cases he : e.1 = k
    · have hne : ¬ e.1.1 = sd' := by rw [he]; exact h
      simp only [he, bne_self_eq_false, Bool.false_eq_true, if_false]
      rw [ih, subdirFiles_cons, if_neg hne, List.nil_append]
    · have hkeep : (e.1 != k) = true := by simpa [bne_iff_ne] using he
      rw [hkeep, if_pos rfl, subdirFiles_cons, subdirFiles_cons, ih]

theorem subdirFiles_fsInsert_ne (fs : FS) (k : String × String) (f : File)
    (sd' : String) (h : k.1 ≠ sd') :
    subdirFiles (fsInsert fs k f) sd' = subdirFiles fs sd' := by
  show subdirFiles ((k, f) :: fs.filter (fun e => e.1 != k)) sd' = _
  rw [subdirFiles_cons]
  simp only [if_neg h, List.nil_append]
  exact subdirFiles_filter_ne fs k sd' h

/-- `syncPath` for subdir `sd` leaves every other subdir's local and remote
listings unchanged. -/
theorem syncPath_frame (dryRun : Bool) (policy : Option String)
    (upFail downFail : String → String → Option String) (now : Nat)
    (sd p : String) (ls rs : Option File) (st : World × SyncResult)
    (sd' : String) (h : sd ≠ sd') :
    subdirFiles (syncPath dryRun policy upFail downFail now sd p ls rs st).1.localFS sd'
        = subdirFiles st.1.localFS sd'
    ∧ subdirFiles (syncPath dryRun policy upFail downFail now sd p ls rs st).1.remoteFS sd'
        = subdirFiles st.1.remoteFS sd' := by
  rcases st with ⟨w, r⟩
  have hl := fun fs f => subdirFiles_fsInsert_ne fs (sd, p) f sd' h
  have hc := fun fs f => subdirFiles_fsInsert_ne fs (sd, conflictPath p) f sd' h
  have hbackup : ∀ w' : World, (backupFile w' sd p now).localFS = w'.localFS
      ∧ (backupFile w' sd p now).remoteFS = w'.remoteFS := by
    intro w'
    unfold backupFile
    rcases fsLookup w'.localFS (sd, p) with _ | cur <;> simp
  rcases ls with _ | lf <;> rcases rs with _ | rf
  · simp [syncPath]
  · cases dryRun
    · rcases hdo : downFail sd p with _ | m <;>
        simp [syncPath, downloadFile, hdo, hl]
    · simp [syncPath]
  · cases dryRun
    · rcases hu : upFail sd p with _ | m <;>
        simp [syncPath, uploadFile, hu, hl]
    · simp [syncPath]
  · by_cases hd : filesDiffer lf rf = true
    · cases dryRun
      · by_cases hup : resolveConflict policy lf rf = "upload"
        · rcases hu : upFail sd p with _ | m <;>
            simp [syncPath, uploadFile, downloadFile, hd, hup, hu,
              hl, hc, (hbackup ⟨w.localFS, w.remoteFS, w.backups, w.lastSync⟩), hbackup w]
        · by_cases hboth : resolveConflict policy lf rf = "both"
          · rcases hu : upFail sd p with _ | m
            · rcases hdo : downFail sd p with _ | m' <;>
                simp [syncPath, uploadFile, downloadFile, hd, hboth, hu, hdo,
                  hl, hc, hbackup w]
            · simp [syncPath, hd, hboth, hu, hbackup w]
          · by_cases hdl : resolveConflict policy lf rf = "download"
            · rcases hdo : downFail sd p with _ | m' <;>
                simp [syncPath, uploadFile, downloadFile, hd, hup, hboth, hdl, hdo,
                  hl, hc, hbackup w]
            · simp [syncPath, hd, hup, hboth, hdl, hbackup w]
      · simp [syncPath, hd]
    · rw [Bool.not_eq_true] at hd
      cases dryRun <;> simp [syncPath, hd]

/-- Folding `syncPath` for subdir `sd` preserves the listings of every other
subdir. -/
theorem foldl_syncPath_frame (dryRun : Bool) (policy : Option String)
    (upFail downFail : String → String → Option String) (now : Nat)
    (sd : String) (lsnap rsnap : List (String × File)) (paths : List String)
    (st : World × SyncResult) (sd' : String) (h : sd ≠ sd') :
    subdirFiles (paths.foldl
        (fun st' p => syncPath dryRun policy upFail downFail now sd p
          (lookupA lsnap p) (lookupA rsnap p) st') st).1.localFS sd'
      = subdirFiles st.1.localFS sd'
    ∧ subdirFiles (paths.foldl
        (fun st' p => syncPath dryRun policy upFail downFail now sd p
          (lookupA lsnap p) (lookupA rsnap p) st') st).1.remoteFS sd'
      = subdirFiles st.1.remoteFS sd' := by
  induction paths generalizing st with
  | nil => exact ⟨rfl, rfl⟩
  | cons p rest ih =>
    obtain ⟨h1, h2⟩ := syncPath_frame dryRun policy upFail downFail now sd p
      (lookupA lsnap p) (lookupA rsnap p) st sd' h
    obtain ⟨h3, h4⟩ := ih (syncPath dryRun policy upFail downFail now sd p
      (lookupA lsnap p) (lookupA rsnap p) st)
    exact ⟨h3.trans h1, h4.trans h2⟩

/-- `runSubdir sd` preserves the listings of every other subdir. -/
theorem runSubdir_frame (dryRun : Bool) (policy : Option String)
    (upFail downFail : String → String → Option String) (now : Nat)
    (sd : String) (st : World × SyncResult) (sd' : String) (h : sd ≠ sd') :
    subdirFiles (runSubdir dryRun policy upFail downFail now sd st).1.localFS sd'
      = subdirFiles st.1.localFS sd'
    ∧ subdirFiles (runSubdir dryRun policy upFail downFail now sd st).1.remoteFS sd'
      = subdirFiles st.1.remoteFS sd' :=
  foldl_syncPath_frame dryRun policy upFail downFail now sd _ _ _ st sd' h

/-- The full sync result, as a pure function of the initial world's three
subdir listings (specification side). -/
def runSyncSpec (dryRun : Bool) (policy : Option String)
    (upFail downFail : String → String → Option String) (w : World) : SyncResult :=
  (["public", "private", "artifacts"]).foldl
    (fun acc sd => addResult acc
      (subdirDelta dryRun policy upFail downFail sd
        (subdirFiles w.localFS sd) (subdirFiles w.remoteFS sd))) ⟨0, 0, [], []⟩

/-- The result of `runSync` is exactly `runSyncSpec` of the initial world:
every path of every folder contributes its per-path delta computed from the
initial listings, independently of what happened to other paths. -/
theorem runSync_result (dryRun : Bool) (policy : Option String)
    (upFail downFail : String → String → Option String) (now : Nat) (w : World) :
    (runSync dryRun policy upFail downFail now w).2
      = runSyncSpec dryRun policy upFail downFail w := by
  have hlast : ∀ st : World × SyncResult,
      (if dryRun then st else ({ st.1 with lastSync := some now }, st.2)).2 = st.2 := by
    intro st; cases dryRun <;> rfl
  have hgoal : (runSync dryRun policy upFail downFail now w).2
      = (runSubdir dryRun policy upFail downFail now "artifacts"
          (runSubdir dryRun policy upFail downFail now "private"
            (runSubdir dryRun policy upFail downFail now "public"
              (w, ⟨0, 0, [], []⟩)))).2 := by
    unfold runSync
    exact hlast _
  rw [hgoal]
  obtain ⟨hl1, hr1⟩ := runSubdir_frame dryRun policy upFail downFail now "public"
    (w, ⟨0, 0, [], []⟩) "private" (by decide)
  obtain ⟨hl2, hr2⟩ := runSubdir_frame dryRun policy upFail downFail now "public"
    (w, ⟨0, 0, [], []⟩) "artifacts" (by decide)
  obtain ⟨hl3, hr3⟩ := runSubdir_frame dryRun policy upFail downFail now "private"
    (runSubdir dryRun policy upFail downFail now "public" (w, ⟨0, 0, [], []⟩))
    "artifacts" (by decide)
  rw [runSubdir_result, runSubdir_result, runSubdir_result, hl1, hr1,
    hl3, hr3, hl2, hr2]
  show _ = (["public", "private", "artifacts"]).foldl _ _
  simp only [List.foldl_cons, List.foldl_nil]

/-- A dry-run `syncPath` never changes the world. -/
theorem syncPath_dry_world (policy : Option String)
    (upFail downFail : String → String → Option String) (now : Nat)
    (sd p : String) (ls rs : Option File) (st : World × SyncResult) :
    (syncPath true policy upFail downFail now sd p ls rs st).1 = st.1 := by
  rcases st with ⟨w, r⟩
  rcases ls with _ | lf <;> rcases rs with _ | rf
  · rfl
  · rfl
  · rfl
  · by_cases hd : filesDiffer lf rf = true <;> simp [syncPath, hd]

theorem foldl_syncPath_dry_world (policy : Option String)
    (upFail downFail : String → String → Option String) (now : Nat)
    (sd : String) (lsnap rsnap : List (String × File)) (paths : List String)
    (st : World × SyncResult) :
    (paths.foldl
      (fun st' p => syncPath true policy upFail downFail now sd p
        (lookupA lsnap p) (lookupA rsnap p) st') st).1 = st.1 := by
  induction paths generalizing st with
  | nil => rfl
  | cons p rest ih =>
    show (rest.foldl _ (syncPath true policy upFail downFail now sd p
      (lookupA lsnap p) (lookupA rsnap p) st)).1 = st.1
    rw [ih, syncPath_dry_world]

/-- A dry-run `runSubdir` never changes the world. -/
theorem runSubdir_dry_world (policy : Option String)
    (upFail downFail : String → String → Option String) (now : Nat)
    (sd : String) (st : World × SyncResult) :
    (runSubdir true policy upFail downFail now sd st).1 = st.1 :=
  foldl_syncPath_dry_world policy upFail downFail now sd _ _ _ st

/-- The conflicts component of a per-path delta does not depend on the
dry-run flag (decisions are computed either way). -/
theorem pathDelta_conflicts_dry (d d' : Bool) (policy : Option String)
    (upFail downFail : String → String → Option String)
    (sd p : String) (ls rs : Option File) :
    (pathDelta d policy upFail downFail sd p ls rs).conflicts
      = (pathDelta d' policy upFail downFail sd p ls rs).conflicts := by
  rcases ls with _ | lf <;> rcases rs with _ | rf
  · rfl
  · cases d <;> cases d' <;>
      rcases hdo : downFail sd p with _ | m <;>
      simp [pathDelta, hdo]
  · cases d <;> cases d' <;>
      rcases hu : upFail sd p with _ | m <;>
      simp [pathDelta, hu]
  · by_cases hd : filesDiffer lf rf = true
    · by_cases hup : resolveConflict policy lf rf = "upload"
      · cases d <;> cases d' <;>
          rcases hu : upFail sd p with _ | m <;>
          simp [pathDelta, hd, hup, hu]
      · by_cases hboth : resolveConflict policy lf rf = "both"
        · cases d <;> cases d' <;>
            rcases hu : upFail sd p with _ | m <;>
            rcases hdo : downFail sd p with _ | m' <;>
            simp [pathDelta, hd, hboth, hu, hdo]
        · by_cases hdl : resolveConflict policy lf rf = "download"
          · cases d <;> cases d' <;>
              rcases hdo : downFail sd p with _ | m' <;>
              simp [pathDelta, hd, hup, hboth, hdl, hdo]
          · cases d <;> cases d' <;>
              simp [pathDelta, hd, hup, hboth, hdl]
    · rw [Bool.not_eq_true] at hd
      cases d <;> cases d' <;> simp [pathDelta, hd]

theorem sumDeltas_conflicts_congr (g g' : String → SyncResult)
    (h : ∀ p, (g p).conflicts = (g' p).conflicts) (paths : List String) :
    (sumDeltas g paths).conflicts = (sumDeltas g' paths).conflicts := by
  induction paths with
  | nil => rfl
  | cons p rest ih =>
    rw [sumDeltas_cons, sumDeltas_cons]
    show (g p).conflicts ++ _ = (g' p).conflicts ++ _
    rw [h p, ih]

/-- The conflicts list reported by `runSyncSpec` does not depend on the
dry-run flag. -/
theorem runSyncSpec_conflicts_dry (d d' : Bool) (policy : Option String)
    (upFail downFail : String → String → Option String) (w : World) :
    (runSyncSpec d policy upFail downFail w).conflicts
      = (runSyncSpec d' policy upFail downFail w).conflicts := by
  unfold runSyncSpec
  simp only [List.foldl_cons, List.foldl_nil]
  show _ ++ _ ++ _ ++ _ = _ ++ _ ++ _ ++ _
  simp only [subdirDelta]
  rw [sumDeltas_conflicts_congr
        (h := fun p => pathDelta_conflicts_dry d d' policy upFail downFail "public" p _ _),
      sumDeltas_conflicts_congr
        (h := fun p => pathDelta_conflicts_dry d d' policy upFail downFail "private" p _ _),
      sumDeltas_conflicts_congr
        (h := fun p => pathDelta_conflicts_dry d d' policy upFail downFail "artifacts" p _ _)]

/-- A world with a single conflicting path `public/a.txt`: local content "L"
(size 1, mtime 0), remote content "R" (size 2, mtime 5000). -/
def conflictWorld : World :=
  ⟨[(("public", "a.txt"), ⟨1, 0, "L"⟩)],
   [(("public", "a.txt"), ⟨2, 5000, "R"⟩)], [], none⟩

/-- Oracle under which every transfer succeeds. -/
def noFail : String → String → Option String := fun _ _ => none

/-- C1 (counterexample): on a conflicting path resolved as a download
(policy `vast_wins`), the dry run reports `downloaded = 0` while the real
pass reports `downloaded = 1`: the conflict-resolution transfer counters are
only incremented inside the non-dry branch, so a dry run does not report the
same uploaded/downloaded counts as a real pass. -/
theorem runSync_dry_counts_cex :
    (runSync true (some "vast_wins") noFail noFail 1000 conflictWorld).2.downloaded = 0
    ∧ (runSync false (some "vast_wins") noFail noFail 1000 conflictWorld).2.downloaded = 1
    ∧ (runSync true (some "vast_wins") noFail noFail 1000 conflictWorld).2.downloaded
      ≠ (runSync false (some "vast_wins") noFail noFail 1000 conflictWorld).2.downloaded := by
  refine ⟨by decide, by decide, by decide⟩

/-- C1 (amended): a dry-run sync performs no upload, no download, no
overwrite, creates no Backup Copy and leaves the Sync Checkpoint unchanged
(the whole world is unchanged), and it reports the same conflicts list (with
the same per-path resolutions) as a real pass would; the uploaded/downloaded
counters, however, count conflict-resolution transfers only in a real
pass. -/
theorem runSync_dryRun_frame (policy : Option String)
    (upFail downFail : String → String → Option String) (now : Nat) (w : World) :
    (runSync true policy upFail downFail now w).1 = w
    ∧ (runSync true policy upFail downFail now w).2.conflicts
        = (runSync false policy upFail downFail now w).2.conflicts := by
  constructor
  · show ((["public", "private", "artifacts"]).foldl
        (fun st' sd => runSubdir true policy upFail downFail now sd st')
        (w, ⟨0, 0, [], []⟩)).1 = w
    simp only [List.foldl_cons, List.foldl_nil]
    rw [runSubdir_dry_world, runSubdir_dry_world, runSubdir_dry_world]
  · rw [runSync_result, runSync_result]
    exact runSyncSpec_conflicts_dry true false policy upFail downFail w

/-- C8: the result of a pass is the independent per-path combination
`runSyncSpec` — a failing transfer on one path is recorded as its own
`errors` entry and leaves every other path's handling unchanged — and after
all folders are processed the Sync Checkpoint is set to the pass timestamp
exactly when the pass was not a dry run, regardless of recorded errors. -/
theorem runSync_errors_checkpoint (dryRun : Bool) (policy : Option String)
    (upFail downFail : String → String → Option String) (now : Nat) (w : World) :
    (runSync false policy upFail downFail now w).1.lastSync = some now
    ∧ (runSync true policy upFail downFail now w).1.lastSync = w.lastSync
    ∧ (runSync dryRun policy upFail downFail now w).2.errors
        = (runSyncSpec dryRun policy upFail downFail w).errors := by
  refine ⟨rfl, ?_, congrArg SyncResult.errors
    (runSync_result dryRun policy upFail downFail now w)⟩
  have hw : (runSync true policy upFail downFail now w).1 = w := by
    show ((["public", "private", "artifacts"]).foldl
        (fun st' sd => runSubdir true policy upFail downFail now sd st')
        (w, ⟨0, 0, [], []⟩)).1 = w
    simp only [List.foldl_cons, List.foldl_nil]
    rw [runSubdir_dry_world, runSubdir_dry_world, runSubdir_dry_world]
  rw [hw]

/-- C4 (counterexample): with policy `pc_wins` the conflict on
`public/a.txt` is resolved as an upload — the local file wins and is never
overwritten by a download — yet the real pass still creates a Backup Copy of
it. -/
theorem runSync_backup_on_upload_cex :
    (runSync false (some "pc_wins") noFail noFail 1000 conflictWorld).2.conflicts
      = [("public/a.txt", "upload")]
    ∧ (runSync false (some "pc_wins") noFail noFail 1000 conflictWorld).1.backups
      = [("public_a.txt_1000", ⟨1, 0, "L"⟩)] := by
  refine ⟨by decide, by decide⟩

/-- C4 (amended): during a non-dry-run pass a Backup Copy of the current
local file is created exactly when the path is a detected conflict — before
the resolution is applied and regardless of which side wins — so a file that
exists only remotely never produces a Backup Copy, but a conflict resolved
in favor of the local side (upload) does; a dry run never produces one. -/
theorem syncPath_backups (policy : Option String)
    (upFail downFail : String → String → Option String) (now : Nat)
    (sd p : String) (ls rs : Option File) (st : World × SyncResult) :
    (syncPath false policy upFail downFail now sd p ls rs st).1.backups
      = st.1.backups ++
        (match ls, rs, fsLookup st.1.localFS (sd, p) with
         | some lf, some rf, some cur =>
            if filesDiffer lf rf then [(backupName sd p now, cur)] else []
         | _, _, _ => [])
    ∧ (syncPath true policy upFail downFail now sd p ls rs st).1.backups
        = st.1.backups := by
  rcases st with ⟨w, r⟩
  refine ⟨?_, congrArg World.backups
    (syncPath_dry_world policy upFail downFail now sd p ls rs (w, r))⟩
  rcases ls with _ | lf <;> rcases rs with _ | rf
  · simp [syncPath]
  · rcases hdo : downFail sd p with _ | m <;>
      simp [syncPath, downloadFile, hdo]
  · rcases hu : upFail sd p with _ | m <;>
      simp [syncPath, uploadFile, hu]
  · by_cases hd : filesDiffer lf rf = true
    · have hkey : (syncPath false policy upFail downFail now sd p (some lf) (some rf)
          (w, r)).1.backups = (backupFile w sd p now).backups := by
        by_cases hup : resolveConflict policy lf rf = "upload"
        · rcases hu : upFail sd p with _ | m <;>
            simp [syncPath, uploadFile, hd, hup, hu]
        · by_cases hboth : resolveConflict policy lf rf = "both"
          · rcases hu : upFail sd p with _ | m
            · rcases hdo : downFail sd p with _ | m' <;>
                simp [syncPath, uploadFile, downloadFile, hd, hboth, hu, hdo]
            · simp [syncPath, hd, hboth, hu]
          · by_cases hdl : resolveConflict policy lf rf = "download"
            · rcases hdo : downFail sd p with _ | m' <;>
                simp [syncPath, downloadFile, hd, hup, hboth, hdl, hdo]
            · simp [syncPath, hd, hup, hboth, hdl]
      rw [hkey]
      unfold backupFile
      rcases hcur : fsLookup w.localFS (sd, p) with _ | cur <;> simp [hcur, hd]
    · rw [Bool.not_eq_true] at hd
      rcases hcur : fsLookup w.localFS (sd, p) with _ | cur <;>
        simp [syncPath, hd, hcur]

theorem fsLookup_fsInsert (fs : FS) (k : String × String) (f : File) :
    fsLookup (fsInsert fs k f) k = some f := by
  simp [fsLookup, fsInsert, List.find?]

theorem findFilter_ne (fs : FS) (k k' : String × String) (h : k' ≠ k) :
    (fs.filter (fun e => e.1 != k)).find? (fun e => e.1 == k')
      = fs.find? (fun e => e.1 == k') := by
  have hke : k ≠ k' := fun hh => h hh.symm
  induction fs with
  | nil => rfl
  | cons e rest ih =>
    by_cases he : e.1 = k
    · have hne : (k == k') = false := beq_eq_false_iff_ne.mpr hke
      simp [List.filter_cons, he, List.find?_cons, hne, ih]
    · have hkeep : (e.1 != k) = true := by simpa [bne_iff_ne] using he
      by_cases hk' : (e.1 == k') = true
      · simp [List.filter_cons, hkeep, List.find?_cons, hk']
      · rw [Bool.not_eq_true] at hk'
        simp [List.filter_cons, hkeep, List.find?_cons, hk', ih]

theorem fsLookup_fsInsert_ne (fs : FS) (k : String × String) (f : File)
    (k' : String × String) (h : k' ≠ k) :
    fsLookup (fsInsert fs k f) k' = fsLookup fs k' := by
  unfold fsLookup fsInsert
  have hne : (k == k') = false := beq_eq_false_iff_ne.mpr (fun hh => h hh.symm)
  simp [List.find?_cons, hne, findFilter_ne fs k k' h]

/-- C5 (counterexample): under the keep-both policy, the file that appears
under the decorated name `a.sync-conflict-local.txt` holds the LOCAL content
"L", not the remote copy "R" — the code copies the local file to the
decorated name and then overwrites the original path with the content it
just uploaded — so the remote copy is not downloaded under the decorated
filename. -/
theorem runSync_keep_both_cex :
    (fsLookup conflictWorld.remoteFS ("public", "a.txt")).map File.content = some "R"
    ∧ ((fsLookup (runSync false (some "keep_both") noFail noFail 1000
        conflictWorld).1.localFS ("public", "a.sync-conflict-local.txt")).map
          File.content) = some "L"
    ∧ ((fsLookup (runSync false (some "keep_both") noFail noFail 1000
        conflictWorld).1.localFS ("public", "a.sync-conflict-local.txt")).map
          File.content) ≠ some "R" := by
  refine ⟨by decide, by decide, by decide⟩

/-- C5 (amended): under the keep-both policy a conflicting path is resolved
by saving the current local copy under the decorated filename, uploading the
local content over the remote copy, and then downloading that just-uploaded
content back to the original path — so after the pass the decorated file,
the original local path and the remote path all hold the prior local file
(the original path's content is unchanged, but the decorated file holds the
local copy, not the remote one, and the remote copy is overwritten). -/
theorem syncPath_keep_both (upFail downFail : String → String → Option String)
    (now : Nat) (sd p : String) (lf rf : File) (st : World × SyncResult)
    (hls : fsLookup st.1.localFS (sd, p) = some lf)
    (hup : upFail sd p = none) (hdown : downFail sd p = none)
    (hd : filesDiffer lf rf = true) :
    fsLookup (syncPath false (some "keep_both") upFail downFail now sd p
        (some lf) (some rf) st).1.localFS (sd, conflictPath p) = some lf
    ∧ fsLookup (syncPath false (some "keep_both") upFail downFail now sd p
        (some lf) (some rf) st).1.localFS (sd, p) = some lf
    ∧ fsLookup (syncPath false (some "keep_both") upFail downFail now sd p
        (some lf) (some rf) st).1.remoteFS (sd, p) = some lf := by
  rcases st with ⟨w, r⟩
  have hres : resolveConflict (some "keep_both") lf rf = "both" := rfl
  have hbl : (backupFile w sd p now).localFS = w.localFS := by
    unfold backupFile
    rcases fsLookup w.localFS (sd, p) with _ | cur <;> rfl
  have hbr : (backupFile w sd p now).remoteFS = w.remoteFS := by
    unfold backupFile
    rcases fsLookup w.localFS (sd, p) with _ | cur <;> rfl
  have hstep : (syncPath false (some "keep_both") upFail downFail now sd p
      (some lf) (some rf) (w, r)).1.localFS
        = fsInsert (fsInsert w.localFS (sd, conflictPath p) lf) (sd, p) lf
    ∧ (syncPath false (some "keep_both") upFail downFail now sd p
      (some lf) (some rf) (w, r)).1.remoteFS
        = fsInsert w.remoteFS (sd, p) lf := by
    simp [syncPath, hd, hres, hup, hdown, uploadFile, downloadFile, hbl, hbr,
      hls, fsLookup_fsInsert]
  refine ⟨?_, ?_, ?_⟩
  · rw [hstep.1]
    by_cases hcp : conflictPath p = p
    · rw [hcp, fsLookup_fsInsert]
    · rw [fsLookup_fsInsert_ne _ _ _ _ (by simp [hcp]), fsLookup_fsInsert]
  · rw [hstep.1, fsLookup_fsInsert]
  · rw [hstep.2, fsLookup_fsInsert]

/-- Witness for `syncPath_keep_both` at concrete inputs. -/
theorem syncPath_keep_both_witness :
    fsLookup (syncPath false (some "keep_both") noFail noFail 1000 "public"
        "a.txt" (some ⟨1, 0, "L"⟩) (some ⟨2, 5000, "R"⟩)
        (conflictWorld, ⟨0, 0, [], []⟩)).1.localFS
      ("public", conflictPath "a.txt") = some ⟨1, 0, "L"⟩
    ∧ fsLookup (syncPath false (some "keep_both") noFail noFail 1000 "public"
        "a.txt" (some ⟨1, 0, "L"⟩) (some ⟨2, 5000, "R"⟩)
        (conflictWorld, ⟨0, 0, [], []⟩)).1.localFS
      ("public", "a.txt") = some ⟨1, 0, "L"⟩
    ∧ fsLookup (syncPath false (some "keep_both") noFail noFail 1000 "public"
        "a.txt" (some ⟨1, 0, "L"⟩) (some ⟨2, 5000, "R"⟩)
        (conflictWorld, ⟨0, 0, [], []⟩)).1.remoteFS
      ("public", "a.txt") = some ⟨1, 0, "L"⟩ :=
  syncPath_keep_both noFail noFail 1000 "public" "a.txt" ⟨1, 0, "L"⟩ ⟨2, 5000, "R"⟩
    (conflictWorld, ⟨0, 0, [], []⟩) (by decide) rfl rfl (by decide)

end MJB
